import Mathlib

/-!
Shallow embedding of `drivers/accessibility/braille/braille_console.c`:
the line buffer fed by VT write notifications, the frame encoder
(`braille_write`) with its change-detection cache, the keyboard handlers
(`handle_console_key`, `handle_vc_key`) and viewport panning, and console
registration (`braille_register_console`).

Machine integers: the C code uses `u16` for buffer cells and `unsigned
char` for frame bytes; cell and byte values are modelled as `Nat` (all
operations performed stay far below any wrap-around).  `int` variables
that the code can drive negative or compares against negatives
(`console_cursor`, `vc_view_x`, `vc_view_y`, `lastVC`, return codes) are
modelled as `Int`.  Transport writes are modelled by accumulating the
byte lists handed to `braille_co->write`; audible cues by accumulating
the frequencies handed to `beep`.
-/

/-- `static const int WIDTH = 40;` -/
def WIDTH : Int := 40

/-- State owned by the VT_WRITE handler: `console_buf` (WIDTH cells),
`console_cursor`, `console_newline`. -/
structure LineBuf where
  buf : List Nat
  cursor : Int
  newline : Bool
deriving DecidableEq, Repr

/-- The character switch inside `vt_notifier_call`'s `VT_WRITE` case:
backspace/delete, line terminators (lazy clear via `console_newline`),
tab collapsed to space, other controls ignored, printable characters
written at the cursor with sliding-window shift at `WIDTH`.
The `memmove(console_buf, &console_buf[1], (WIDTH-1)*sizeof)` left shift
keeps the last cell's old value (index `WIDTH-1` is not a destination),
hence `tail ++ [getD (WIDTH-1)]`; the subsequent store
`console_buf[console_cursor-1] = c` is the final `List.set`. -/
def on_char (s : LineBuf) (c0 : Nat) : LineBuf :=
  if c0 = 8 ∨ c0 = 127 then
    if s.cursor > 0 then
      { s with cursor := s.cursor - 1, buf := s.buf.set (s.cursor - 1).toNat 32 }
    else s
  else if c0 = 10 ∨ c0 = 11 ∨ c0 = 12 ∨ c0 = 13 then
    { s with newline := true }
  else
    let c := if c0 = 9 then 32 else c0
    if c < 32 then s
    else
      let s1 := if s.newline then LineBuf.mk (List.replicate 40 0) 0 false else s
      let s2 :=
        if s1.cursor = WIDTH then
          { s1 with buf := s1.buf.tail ++ [s1.buf.getD 39 0] }
        else
          { s1 with cursor := s1.cursor + 1 }
      { s2 with buf := s2.buf.set (s2.cursor - 1).toNat c }

/-- Indices at which `on_char` stores into `console_buf`, mirroring the
two store sites of the C switch (`console_buf[console_cursor] = ' '`
after the decrement, and `console_buf[console_cursor-1] = c`). -/
def on_char_writes (s : LineBuf) (c0 : Nat) : List Int :=
  if c0 = 8 ∨ c0 = 127 then
    if s.cursor > 0 then [s.cursor - 1] else []
  else if c0 = 10 ∨ c0 = 11 ∨ c0 = 12 ∨ c0 = 13 then []
  else
    let c := if c0 = 9 then 32 else c0
    if c < 32 then []
    else
      let cur1 := if s.newline then 0 else s.cursor
      let cur2 := if cur1 = WIDTH then cur1 else cur1 + 1
      [cur2 - 1]

/-- Buffer state at module load: `console_buf` zeroed, `console_cursor = 0`;
`console_newline` is statically initialized to 1 in the source, but the
states reached right after a clear (`VT_UPDATE` console switch, or the
lazy clear) have it 0, so both are of interest; `initLineBuf` is the
cleared state. -/
def initLineBuf : LineBuf := ⟨List.replicate 40 0, 0, false⟩

/-- Feeding a sequence of characters through the VT_WRITE handler. -/
def feed (s : LineBuf) (cs : List Nat) : LineBuf :=
  cs.foldl on_char s

example : feed initLineBuf [65, 66, 10, 67] = ⟨67 :: List.replicate 39 0, 1, false⟩ := by
  decide

example : feed initLineBuf [65, 66, 10] = ⟨[65, 66] ++ List.replicate 38 0, 2, true⟩ := by
  decide

/-! ## Frame encoder (`braille_write`) -/

/-- The per-cell substitution at the top of the encoding loop:
`if (char_val >= 0x100) char_val = '?'; else if (char_val == 0x00) char_val = ' ';`. -/
def substChar (c : Nat) : Nat :=
  if 0x100 ≤ c then 0x3F else if c = 0 then 0x20 else c

/-- Emission of one data byte with escaping:
`if (val <= 0x05) { *data_ptr++ = SOH; val |= 0x40; } *data_ptr++ = val;`. -/
def escTok (v : Nat) : List Nat :=
  if v ≤ 5 then [1, v ||| 0x40] else [v]

/-- The encoding loop of `braille_write` followed by the checksum and ETX
emission, as a fold over the remaining cells carrying the running `csum`:
per cell, substitute, fold the pre-escape value into `csum`, emit escaped;
after the loop emit the (escaped) checksum and `ETX`. -/
def framePayload : List Nat → Nat → List Nat
  | [], csum => escTok csum ++ [3]
  | c :: rest, csum =>
      let v := substChar c
      escTok v ++ framePayload rest (Nat.xor csum v)

/-- The full frame `braille_write` assembles for a changed line:
`data[0] = STX; data[1] = '>'; csum ^= '>';` then the loop. -/
def braille_frame (buf : List Nat) : List Nat :=
  2 :: 0x3E :: framePayload buf (Nat.xor 0 0x3E)

/-- The checksum as the spec states it: the exclusive-or of the command
byte `'>'` and all WIDTH substituted (pre-escape) character values. -/
def chksum (buf : List Nat) : Nat :=
  (buf.map substChar).foldl Nat.xor 0x3E

/-- Encoder-visible state: whether a device is bound (`braille_co`),
the `last_write_buf` change-detection cache, and the accumulated
transport writes (each element one `braille_co->write` byte sequence). -/
structure EncState where
  bound : Bool
  last : List Nat
  writes : List (List Nat)
deriving DecidableEq, Repr

/-- `braille_write`: bail out when no console is bound, bail out when the
line equals `last_write_buf` (memcmp), otherwise update the cache, build
the frame and hand it to the transport in one call. -/
def braille_write (st : EncState) (buf : List Nat) : EncState :=
  if !st.bound then st
  else if buf = st.last then st
  else { st with last := buf, writes := st.writes ++ [braille_frame buf] }

example : braille_frame (List.replicate 40 0) =
    [2, 0x3E] ++ List.replicate 40 0x20 ++ [0x3E, 3] := by decide

example : chksum (0x61 :: 0x5F :: List.replicate 38 0) = 0 := by decide

example : (braille_frame (0x61 :: 0x5F :: List.replicate 38 0)).drop 42 = [1, 0x40, 3] := by
  decide

/-! ## Keyboard handlers and VT notifier -/

/-- The fields of `vc_data` the handlers read: `vc_num`, the live cursor
`state.x`/`state.y`, and the grid dimensions `vc_cols`/`vc_rows`. -/
structure VC where
  num : Int
  x : Int
  y : Int
  cols : Int
  rows : Int
deriving DecidableEq, Repr

/-- The driver's global state bundle: the line buffer, `console_show`
(true = Following, the initial `console_show = 1`), `lastVC`, the
viewport (`vc_view_x`, `vc_view_y`, `lastvc_x`, `lastvc_y`), the encoder
state, and the `beep(freq)` call sites recorded in order (the collaborator
`kd_mksound` behind `beep` is gated by the `sound` module parameter and
out of scope). -/
structure St where
  line : LineBuf
  console_show : Bool
  lastVC : Int
  vc_view_x : Int
  vc_view_y : Int
  lastvc_x : Int
  lastvc_y : Int
  enc : EncState
  beeps : List Nat
deriving DecidableEq, Repr

/-- The key values the two handlers switch on; `other` stands for every
key value not named in either switch. -/
inductive Key
  | insert | left | right | down | up | home | pageup | pagedown | other
deriving DecidableEq, Repr

/-- `vc_follow_cursor`. -/
def vc_follow_cursor (vc : VC) (s : St) : St :=
  { s with vc_view_x := vc.x - vc.x % WIDTH, vc_view_y := vc.y,
           lastvc_x := vc.x, lastvc_y := vc.y }

/-- `handle_console_key`: in Following mode only `BRAILLE_KEY` (Insert)
is consumed — switch to browsing, high beep, snap the viewport to the
cursor (the `refresh_vc` display call is a collaborator, not state). -/
def handle_console_key (vc : VC) (key : Key) (s : St) : St :=
  if key = Key.insert then
    vc_follow_cursor vc { s with console_show := false, beeps := s.beeps ++ [880] }
  else s

/-- `handle_vc_key`: the browsing-mode switch — Insert returns to
Following, resets `lastVC`, and re-sends the line buffer; arrows pan the
viewport with the wrap/blocked beeps; Home/PageUp/PageDown jump. -/
def handle_vc_key (vc : VC) (key : Key) (s : St) : St :=
  match key with
  | Key.insert =>
      let s := { s with beeps := s.beeps ++ [440], console_show := true, lastVC := -1 }
      { s with enc := braille_write s.enc s.line.buf }
  | Key.left =>
      if s.vc_view_x > 0 then
        let x := s.vc_view_x - WIDTH
        { s with vc_view_x := if x < 0 then 0 else x }
      else if s.vc_view_y ≥ 1 then
        { s with beeps := s.beeps ++ [880], vc_view_y := s.vc_view_y - 1,
                 vc_view_x := vc.cols - WIDTH }
      else
        { s with beeps := s.beeps ++ [220] }
  | Key.right =>
      if s.vc_view_x + WIDTH < vc.cols then
        { s with vc_view_x := s.vc_view_x + WIDTH }
      else if s.vc_view_y + 1 < vc.rows then
        { s with beeps := s.beeps ++ [880], vc_view_y := s.vc_view_y + 1, vc_view_x := 0 }
      else
        { s with beeps := s.beeps ++ [220] }
  | Key.down =>
      if s.vc_view_y + 1 < vc.rows then { s with vc_view_y := s.vc_view_y + 1 }
      else { s with beeps := s.beeps ++ [220] }
  | Key.up =>
      if s.vc_view_y ≥ 1 then { s with vc_view_y := s.vc_view_y - 1 }
      else { s with beeps := s.beeps ++ [220] }
  | Key.home => vc_follow_cursor vc s
  | Key.pageup => { s with vc_view_x := 0, vc_view_y := 0 }
  | Key.pagedown => { s with vc_view_x := 0, vc_view_y := vc.rows - 1 }
  | Key.other => s

/-- The `KBD_KEYCODE` case of `keyboard_notifier_call`: ignore key
releases, then dispatch on `console_show`. -/
def keyboard_keycode (vc : VC) (down : Bool) (key : Key) (s : St) : St :=
  if !down then s
  else if s.console_show then handle_console_key vc key s
  else handle_vc_key vc key s

/-- The `VT_WRITE` case of `vt_notifier_call`: drop output not aimed at
the foreground console, run the character switch on the line buffer, then
send the buffer if in Following mode (`refresh_vc` otherwise, a
collaborator call with no core state). -/
def vt_write (fg : Int) (vc : VC) (c : Nat) (s : St) : St :=
  if vc.num ≠ fg then s
  else
    let s := { s with line := on_char s.line c }
    if s.console_show then { s with enc := braille_write s.enc s.line.buf }
    else s

/-! ## Console registration (`braille_register_console`) -/

/-- The fields of `struct console` the binder touches; `setup_ret` models
the `setup` hook by its return value on the options in use (`none` = no
hook installed). -/
structure BrailleConsole where
  id : Nat
  setup_ret : Option Int
  flags : Nat
  index : Int
deriving DecidableEq, Repr

/-- Binder-visible globals: the `braille_co` binding, whether the two
notifier blocks are registered, and the `setup` invocations recorded by
console id. -/
structure Binder where
  braille_co : Option BrailleConsole
  kbd_notifier : Bool
  vt_notifier : Bool
  setup_calls : List Nat
deriving DecidableEq, Repr

/-- `braille_register_console`: default options, `-ENODEV` (= -19) when a
console is already bound, run `setup` and propagate a nonzero failure,
else set `CON_ENABLED` (bit 2), record the index, bind, and register both
notifiers; returns the new binder state, the (possibly updated) console,
and the C return value. -/
def braille_register_console (b : Binder) (co : BrailleConsole) (index : Int)
    (console_options : Option String) : Binder × BrailleConsole × Int :=
  let _opts := console_options.getD "57600o8"
  if b.braille_co.isSome then (b, co, -19)
  else
    let b := { b with setup_calls := b.setup_calls ++ (co.setup_ret.map fun _ => co.id).toList }
    match co.setup_ret with
    | some r =>
        if r ≠ 0 then (b, co, r)
        else
          let co := { co with flags := co.flags ||| 4, index := index }
          ({ b with braille_co := some co, kbd_notifier := true, vt_notifier := true }, co, 1)
    | none =>
        let co := { co with flags := co.flags ||| 4, index := index }
        ({ b with braille_co := some co, kbd_notifier := true, vt_notifier := true }, co, 1)

/-! ## Helper lemmas -/

theorem set_append_len (xs ys : List Nat) (c : Nat) :
    (xs ++ ys).set xs.length c = xs ++ ys.set 0 c := by
  induction xs with
  | nil => simp
  | cons a as ih => simp [List.set, ih]

theorem tail_append_of_ne_nil (xs ys : List Nat) (h : xs ≠ []) :
    (xs ++ ys).tail = xs.tail ++ ys := by
  cases xs with
  | nil => exact absurd rfl h
  | cons a as => simp

/-- The substituted value of a cell is always in `[1, 0xFF]`; in
particular it is never `0`, so on character bytes the escape condition
`val <= 0x05` coincides with `val ∈ [1,5]`. -/
theorem substChar_pos_le (c : Nat) : 1 ≤ substChar c ∧ substChar c ≤ 0xFF := by
  unfold substChar
  split_ifs <;> omega

theorem escTok_length (v : Nat) : 1 ≤ (escTok v).length ∧ (escTok v).length ≤ 2 := by
  unfold escTok
  split_ifs <;> simp

/-- The encoding loop, unrolled: the emitted bytes are the escaped
substituted cells in order, then the escaped checksum accumulated by
`csum ^= char_val` on the pre-escape values, then `ETX`. -/
theorem framePayload_eq (l : List Nat) (csum : Nat) :
    framePayload l csum =
      (l.map substChar).flatMap escTok ++ escTok ((l.map substChar).foldl Nat.xor csum) ++ [3] := by
  induction l generalizing csum with
  | nil => simp [framePayload]
  | cons c rest ih => simp [framePayload, ih, List.flatMap]

/-- The frame of a changed line, decomposed. -/
theorem braille_frame_eq (buf : List Nat) :
    braille_frame buf =
      [2, 0x3E] ++ (buf.map substChar).flatMap escTok ++ escTok (chksum buf) ++ [3] := by
  have h : Nat.xor 0 0x3E = 0x3E := by decide
  simp [braille_frame, framePayload_eq, chksum, h]

theorem framePayload_length_bounds (l : List Nat) (csum : Nat) :
    l.length + 2 ≤ (framePayload l csum).length ∧
      (framePayload l csum).length ≤ 2 * l.length + 3 := by
  induction l generalizing csum with
  | nil =>
      have h := escTok_length csum
      simp only [framePayload, List.length_append, List.length_cons, List.length_nil]
      omega
  | cons c rest ih =>
      have h := escTok_length (substChar c)
      have h2 := ih (Nat.xor csum (substChar c))
      simp only [framePayload, List.length_append, List.length_cons]
      omega

/-! ## Claims -/

/-- C1 (amended): for every 40-entry line, the frame decomposes into the
escaped character emissions followed by the escaped checksum; each
substituted character byte has pre-escape value in `[1, 0xFF]` and is
escaped (emitted as `SOH` then the value OR `0x40`) iff that value lies
in `[1,5]`, and otherwise emitted unmodified; the checksum byte is
escaped iff its pre-escape value is at most 5 — the range `[0,5]`, since
the code tests `csum <= 0x05` and the checksum, unlike a substituted
character, can be 0. -/
theorem C1_escape_rule (buf : List Nat) (_h40 : buf.length = 40) :
    braille_frame buf =
      [2, 0x3E] ++ (buf.map substChar).flatMap escTok ++ escTok (chksum buf) ++ [3] ∧
    (∀ c ∈ buf, 1 ≤ substChar c ∧
      (1 ≤ substChar c ∧ substChar c ≤ 5 → escTok (substChar c) = [1, substChar c ||| 0x40]) ∧
      (¬(1 ≤ substChar c ∧ substChar c ≤ 5) → escTok (substChar c) = [substChar c])) ∧
    ((chksum buf ≤ 5 → escTok (chksum buf) = [1, chksum buf ||| 0x40]) ∧
      (5 < chksum buf → escTok (chksum buf) = [chksum buf])) := by
  refine ⟨braille_frame_eq buf, fun c _ => ?_, ?_, ?_⟩
  · have h := substChar_pos_le c
    refine ⟨h.1, fun hr => ?_, fun hr => ?_⟩
    · simp [escTok, hr.2]
    · have : ¬ substChar c ≤ 5 := by omega
      simp [escTok, this]
  · intro h
    simp [escTok, h]
  · intro h
    have : ¬ chksum buf ≤ 5 := by omega
    simp [escTok, this]

/-- C1 counterexample: for the line `"a_"` padded with 38 blank (0) cells,
the checksum pre-escape value is `0x3E ^ 0x61 ^ 0x5F ^ (38 copies of
0x20) = 0`, which lies outside `[1,5]`, yet the frame does not end with
the unmodified byte `[0, ETX]` — the checksum is emitted escaped, as
`SOH(1)` followed by `0 ||| 0x40 = 0x40`. -/
theorem C1_counterexample :
    chksum (0x61 :: 0x5F :: List.replicate 38 0) = 0 ∧
    ¬(1 ≤ chksum (0x61 :: 0x5F :: List.replicate 38 0) ∧
        chksum (0x61 :: 0x5F :: List.replicate 38 0) ≤ 5) ∧
    braille_frame (0x61 :: 0x5F :: List.replicate 38 0) =
      [2, 0x3E, 0x61, 0x5F] ++ List.replicate 38 0x20 ++ [1, 0x40, 3] ∧
    braille_frame (0x61 :: 0x5F :: List.replicate 38 0) ≠
      [2, 0x3E, 0x61, 0x5F] ++ List.replicate 38 0x20 ++ [0, 3] := by
  refine ⟨by decide, by decide, by decide, by decide⟩

/-- C1 witness. -/
theorem C1_escape_rule_witness :
    braille_frame (List.replicate 40 65) =
      [2, 0x3E] ++ ((List.replicate 40 65).map substChar).flatMap escTok ++
        escTok (chksum (List.replicate 40 65)) ++ [3] ∧
    (∀ c ∈ List.replicate 40 65, 1 ≤ substChar c ∧
      (1 ≤ substChar c ∧ substChar c ≤ 5 → escTok (substChar c) = [1, substChar c ||| 0x40]) ∧
      (¬(1 ≤ substChar c ∧ substChar c ≤ 5) → escTok (substChar c) = [substChar c])) ∧
    ((chksum (List.replicate 40 65) ≤ 5 →
        escTok (chksum (List.replicate 40 65)) = [1, chksum (List.replicate 40 65) ||| 0x40]) ∧
      (5 < chksum (List.replicate 40 65) →
        escTok (chksum (List.replicate 40 65)) = [chksum (List.replicate 40 65)])) :=
  C1_escape_rule (List.replicate 40 65) (by decide)

/-- C3: for a 40-entry line that differs from the previously sent one
(with a device bound), the single frame handed to the transport carries,
after the escaped character emissions, the escaped checksum whose
pre-escape value is the XOR of `'>'` (0x3E) with all 40 substituted
character values, substitution mapping values ≥ 0x100 to `'?'` and 0 to
space. -/
theorem C3_checksum (enc : EncState) (buf : List Nat) (_h40 : buf.length = 40)
    (hb : enc.bound = true) (hd : buf ≠ enc.last) :
    (braille_write enc buf).writes =
      enc.writes ++
        [[2, 0x3E] ++ (buf.map substChar).flatMap escTok ++ escTok (chksum buf) ++ [3]] ∧
    chksum buf = (buf.map substChar).foldl Nat.xor 0x3E ∧
    (∀ c, substChar c = if 0x100 ≤ c then 0x3F else if c = 0 then 0x20 else c) := by
  refine ⟨?_, rfl, fun c => rfl⟩
  rw [← braille_frame_eq]
  simp [braille_write, hb, hd]

/-- C3 witness. -/
theorem C3_checksum_witness :
    (braille_write ⟨true, List.replicate 40 0, []⟩ (List.replicate 40 65)).writes =
      [] ++
        [[2, 0x3E] ++ ((List.replicate 40 65).map substChar).flatMap escTok ++
          escTok (chksum (List.replicate 40 65)) ++ [3]] ∧
    chksum (List.replicate 40 65) = ((List.replicate 40 65).map substChar).foldl Nat.xor 0x3E ∧
    (∀ c, substChar c = if 0x100 ≤ c then 0x3F else if c = 0 then 0x20 else c) :=
  C3_checksum ⟨true, List.replicate 40 0, []⟩ (List.replicate 40 65)
    (by decide) (by decide) (by decide)

/-- C4 (amended): with a device bound and a line that differs from the
previously sent one, the first `braille_write` call performs exactly one
transport write; a second call with the identical line performs none (it
does not change the encoder state at all), and this holds for any number
of further identical calls, until a differing line is encoded.  (As
stated the claim fails when the line equals the previously sent one, in
which case no call writes; see the counterexample.) -/
theorem C4_dedup (enc : EncState) (buf : List Nat) (_h40 : buf.length = 40)
    (hb : enc.bound = true) (hd : buf ≠ enc.last) :
    (braille_write enc buf).writes.length = enc.writes.length + 1 ∧
    braille_write (braille_write enc buf) buf = braille_write enc buf ∧
    ∀ n, (fun e => braille_write e buf)^[n] (braille_write enc buf) = braille_write enc buf := by
  have h1 : braille_write enc buf =
      { enc with last := buf, writes := enc.writes ++ [braille_frame buf] } := by
    simp [braille_write, hb, hd]
  have h2 : braille_write (braille_write enc buf) buf = braille_write enc buf := by
    rw [h1]
    simp [braille_write]
  refine ⟨by rw [h1]; simp, h2, fun n => ?_⟩
  induction n with
  | zero => rfl
  | succ k ih => rw [Function.iterate_succ_apply, h2, ih]

/-- C4 counterexample: from the state right after registration
(`last_write_buf` statically zeroed, a device bound, no writes yet) —
equally, the state after any frame whose content was the all-blank line —
two consecutive `braille_write` calls with that identical all-blank
40-entry line perform zero transport writes, not exactly one. -/
theorem C4_counterexample :
    (braille_write (braille_write ⟨true, List.replicate 40 0, []⟩ (List.replicate 40 0))
        (List.replicate 40 0)).writes.length = 0 := by
  decide

/-- C4 witness. -/
theorem C4_dedup_witness :
    (braille_write ⟨true, List.replicate 40 0, []⟩ (List.replicate 40 65)).writes.length =
      List.length ([] : List (List Nat)) + 1 ∧
    braille_write (braille_write ⟨true, List.replicate 40 0, []⟩ (List.replicate 40 65))
        (List.replicate 40 65) =
      braille_write ⟨true, List.replicate 40 0, []⟩ (List.replicate 40 65) ∧
    ∀ n, (fun e => braille_write e (List.replicate 40 65))^[n]
        (braille_write ⟨true, List.replicate 40 0, []⟩ (List.replicate 40 65)) =
      braille_write ⟨true, List.replicate 40 0, []⟩ (List.replicate 40 65) :=
  C4_dedup ⟨true, List.replicate 40 0, []⟩ (List.replicate 40 65)
    (by decide) (by decide) (by decide)

/-- C10: for every 40-entry line the assembled frame is between 44 and 85
bytes long — `STX`, `'>'`, 40 characters of 1 or 2 bytes each, a
checksum of 1 or 2 bytes, `ETX` — so the writes stay inside the
`unsigned char data[1 + 1 + 2*WIDTH + 2 + 1]` buffer (85 bytes); in this
model the byte list handed to the transport is exactly the bytes filled,
mirroring `data_ptr - data`. -/
theorem C10_frame_length (buf : List Nat) (h40 : buf.length = 40) :
    44 ≤ (braille_frame buf).length ∧ (braille_frame buf).length ≤ 85 := by
  have h := framePayload_length_bounds buf (Nat.xor 0 0x3E)
  simp only [braille_frame, List.length_cons, h40] at h ⊢
  omega

/-- C10 witness. -/
theorem C10_frame_length_witness :
    44 ≤ (braille_frame (List.replicate 40 0)).length ∧
      (braille_frame (List.replicate 40 0)).length ≤ 85 :=
  C10_frame_length (List.replicate 40 0) (by decide)

/-- C6: feeding `'A' 'B' '\n' 'C'` from the cleared state yields `'C'` at
position 0, the other 39 cells blank, cursor 1; and right after the
`'\n'` the line still reads `"AB"` with cursor 2 and only the newline
flag set — the clear happens when `'C'` is processed, not at the
newline. -/
theorem C6_newline_lazy_clear :
    feed initLineBuf [65, 66, 10, 67] = ⟨67 :: List.replicate 39 0, 1, false⟩ ∧
    feed initLineBuf [65, 66, 10] = ⟨[65, 66] ++ List.replicate 38 0, 2, true⟩ := by
  constructor <;> decide

/-- C8: a second `braille_register_console` while a console is bound
returns `-ENODEV` synchronously and mutates nothing: the binder state —
the bound console, both notifier registrations, and the record of
`setup` invocations — is returned unchanged, and the second console
itself is returned with its flags and index untouched. -/
theorem C8_exclusive_binding (b : Binder) (c0 d : BrailleConsole) (idx : Int)
    (opts : Option String) (hb : b.braille_co = some c0) (_hd : d ≠ c0) :
    braille_register_console b d idx opts = (b, d, -19) ∧
    (braille_register_console b d idx opts).1.braille_co = some c0 ∧
    (braille_register_console b d idx opts).1.setup_calls = b.setup_calls := by
  have h : b.braille_co.isSome = true := by rw [hb]; rfl
  refine ⟨?_, ?_, ?_⟩ <;> simp [braille_register_console, h, hb]

/-- C8 witness. -/
theorem C8_exclusive_binding_witness :
    braille_register_console ⟨some ⟨1, none, 4, 0⟩, true, true, []⟩ ⟨2, some 0, 0, -1⟩ 3
        (some "57600o8") =
      (⟨some ⟨1, none, 4, 0⟩, true, true, []⟩, ⟨2, some 0, 0, -1⟩, -19) ∧
    (braille_register_console ⟨some ⟨1, none, 4, 0⟩, true, true, []⟩ ⟨2, some 0, 0, -1⟩ 3
        (some "57600o8")).1.braille_co = some ⟨1, none, 4, 0⟩ ∧
    (braille_register_console ⟨some ⟨1, none, 4, 0⟩, true, true, []⟩ ⟨2, some 0, 0, -1⟩ 3
        (some "57600o8")).1.setup_calls = [] :=
  C8_exclusive_binding ⟨some ⟨1, none, 4, 0⟩, true, true, []⟩ ⟨1, none, 4, 0⟩
    ⟨2, some 0, 0, -1⟩ 3 (some "57600o8") rfl (by decide)

/-- C9: the cleared state satisfies `0 ≤ console_cursor ≤ WIDTH`, every
VT_WRITE character preserves that invariant, and under it every store
the handler performs into `console_buf` (the post-decrement store of the
backspace branch and the `console_buf[console_cursor-1]` store of the
printable branch) targets an index in `[0, WIDTH-1]`; consequently every
state reached from the cleared state by a character sequence satisfies
the invariant. -/
theorem C9_cursor_invariant :
    (0 ≤ initLineBuf.cursor ∧ initLineBuf.cursor ≤ WIDTH) ∧
    (∀ (s : LineBuf) (c : Nat), 0 ≤ s.cursor → s.cursor ≤ WIDTH →
      (0 ≤ (on_char s c).cursor ∧ (on_char s c).cursor ≤ WIDTH) ∧
      (∀ i ∈ on_char_writes s c, 0 ≤ i ∧ i < WIDTH)) ∧
    (∀ cs : List Nat, 0 ≤ (feed initLineBuf cs).cursor ∧ (feed initLineBuf cs).cursor ≤ WIDTH) := by
  have hstep : ∀ (s : LineBuf) (c : Nat), 0 ≤ s.cursor → s.cursor ≤ WIDTH →
      (0 ≤ (on_char s c).cursor ∧ (on_char s c).cursor ≤ WIDTH) ∧
      (∀ i ∈ on_char_writes s c, 0 ≤ i ∧ i < WIDTH) := by
    intro s c h0 hW
    simp only [on_char, on_char_writes, WIDTH] at *
    split_ifs <;> simp_all <;> omega
  refine ⟨by simp [initLineBuf, WIDTH], hstep, ?_⟩
  intro cs
  induction cs using List.reverseRecOn with
  | nil => simp [feed, initLineBuf, WIDTH]
  | append_singleton cs c ih =>
      have h := (hstep (feed initLineBuf cs) c ih.1 ih.2).1
      simpa [feed, List.foldl_append] using h

/-- C9 witness. -/
theorem C9_cursor_invariant_witness :
    (0 ≤ (on_char initLineBuf 65).cursor ∧ (on_char initLineBuf 65).cursor ≤ WIDTH) ∧
    (∀ i ∈ on_char_writes initLineBuf 65, 0 ≤ i ∧ i < WIDTH) :=
  C9_cursor_invariant.2.1 initLineBuf 65 (by decide) (by decide)

/-- C7: in Browsing mode (`console_show == 0`), on a key press the
horizontal pans follow exactly the asymmetric case analysis of
`handle_vc_key`: Left with `x > 0` sets `x := max 0 (x - WIDTH)` (the
only clamp, at zero); else with `y ≥ 1` wraps to
`(cols - WIDTH, y - 1)` with the high row-wrap beep; else leaves `(x,y)`
unchanged with the low blocked beep.  Right with `x + WIDTH < cols`
(strict) sets `x := x + WIDTH` with no upper clamp; else with
`y + 1 < rows` wraps to `(0, y + 1)` with the row-wrap beep; else leaves
`(x,y)` unchanged with the blocked beep. -/
theorem C7_pan (vc : VC) (s : St) (hshow : s.console_show = false) :
    (s.vc_view_x > 0 →
      keyboard_keycode vc true Key.left s =
        { s with vc_view_x := max 0 (s.vc_view_x - WIDTH) }) ∧
    (¬ s.vc_view_x > 0 → s.vc_view_y ≥ 1 →
      keyboard_keycode vc true Key.left s =
        { s with vc_view_x := vc.cols - WIDTH, vc_view_y := s.vc_view_y - 1,
                 beeps := s.beeps ++ [880] }) ∧
    (¬ s.vc_view_x > 0 → ¬ s.vc_view_y ≥ 1 →
      keyboard_keycode vc true Key.left s = { s with beeps := s.beeps ++ [220] }) ∧
    (s.vc_view_x + WIDTH < vc.cols →
      keyboard_keycode vc true Key.right s =
        { s with vc_view_x := s.vc_view_x + WIDTH }) ∧
    (¬ s.vc_view_x + WIDTH < vc.cols → s.vc_view_y + 1 < vc.rows →
      keyboard_keycode vc true Key.right s =
        { s with vc_view_x := 0, vc_view_y := s.vc_view_y + 1,
                 beeps := s.beeps ++ [880] }) ∧
    (¬ s.vc_view_x + WIDTH < vc.cols → ¬ s.vc_view_y + 1 < vc.rows →
      keyboard_keycode vc true Key.right s = { s with beeps := s.beeps ++ [220] }) := by
  simp only [keyboard_keycode, hshow, Bool.not_true, if_neg, ite_false, Bool.false_eq_true,
    handle_vc_key]
  refine ⟨fun h1 => ?_, fun h1 h2 => ?_, fun h1 h2 => ?_,
    fun h1 => ?_, fun h1 h2 => ?_, fun h1 h2 => ?_⟩
  · rw [if_pos h1]
    have hmax : (if s.vc_view_x - WIDTH < 0 then 0 else s.vc_view_x - WIDTH) =
        max 0 (s.vc_view_x - WIDTH) := by
      simp only [WIDTH]
      split_ifs <;> omega
    rw [hmax]
  · rw [if_neg h1, if_pos h2]
  · rw [if_neg h1, if_neg h2]
  · rw [if_pos h1]
  · rw [if_neg h1, if_pos h2]
  · rw [if_neg h1, if_neg h2]

/-- C7 witness: one pan-left step at `x = 50` (clamped subtraction), and
one blocked pan-left at the top-left corner `(0, 0)`. -/
theorem C7_pan_witness :
    keyboard_keycode ⟨1, 0, 0, 80, 25⟩ true Key.left
        ⟨initLineBuf, false, -1, 50, 0, 0, 0, ⟨false, [], []⟩, []⟩ =
      { (⟨initLineBuf, false, -1, 50, 0, 0, 0, ⟨false, [], []⟩, []⟩ : St) with
          vc_view_x := max 0 (50 - WIDTH) } ∧
    keyboard_keycode ⟨1, 0, 0, 80, 25⟩ true Key.left
        ⟨initLineBuf, false, -1, 0, 0, 0, 0, ⟨false, [], []⟩, []⟩ =
      { (⟨initLineBuf, false, -1, 0, 0, 0, 0, ⟨false, [], []⟩, []⟩ : St) with
          beeps := [] ++ [220] } :=
  ⟨(C7_pan ⟨1, 0, 0, 80, 25⟩ ⟨initLineBuf, false, -1, 50, 0, 0, 0, ⟨false, [], []⟩, []⟩ rfl).1
      (by decide),
   (C7_pan ⟨1, 0, 0, 80, 25⟩
        ⟨initLineBuf, false, -1, 0, 0, 0, 0, ⟨false, [], []⟩, []⟩ rfl).2.2.1
      (by decide) (by decide)⟩

/-- Characters processed while Browsing never touch the encoder state,
the mode, or `lastVC`: the VT_WRITE handler only updates the line buffer
and, with `console_show` clear, calls `refresh_vc` instead of
`braille_write`. -/
theorem browse_feed_enc (fg : Int) (vcw : VC) (cs : List Nat) :
    ∀ t : St, t.console_show = false →
      (cs.foldl (fun u c => vt_write fg vcw c u) t).console_show = false ∧
      (cs.foldl (fun u c => vt_write fg vcw c u) t).enc = t.enc ∧
      (cs.foldl (fun u c => vt_write fg vcw c u) t).lastVC = t.lastVC := by
  induction cs with
  | nil => exact fun t ht => ⟨ht, rfl, rfl⟩
  | cons c cs ih =>
      intro t ht
      have hstep : (vt_write fg vcw c t).console_show = false ∧
          (vt_write fg vcw c t).enc = t.enc ∧ (vt_write fg vcw c t).lastVC = t.lastVC := by
        simp only [vt_write]
        split_ifs with h1 h2
        · exact ⟨ht, rfl, rfl⟩
        · simp_all
        · exact ⟨ht, rfl, rfl⟩
      have h := ih (vt_write fg vcw c t) hstep.1
      simp only [List.foldl_cons]
      exact ⟨h.1, h.2.1.trans hstep.2.1, h.2.2.trans hstep.2.2⟩

/-- C2 (amended): from Following, pressing Insert enters Browsing; any
characters processed while Browsing leave the encoder untouched;
pressing Insert again returns to Following, resets `lastVC` to `-1`, and
invokes the frame encoder exactly once on the then-current line buffer —
which results in a transport write iff a device is bound and that line
differs from the previously sent one (the encoder's dedup check; as
stated, the claim's unconditional "one send over the transport,
including zero characters" fails, see the counterexample). -/
theorem C2_mode_round_trip (vc1 vc2 vcw : VC) (fg : Int) (cs : List Nat) (s s1 s2 s3 : St)
    (hshow : s.console_show = true)
    (h1 : s1 = keyboard_keycode vc1 true Key.insert s)
    (h2 : s2 = cs.foldl (fun u c => vt_write fg vcw c u) s1)
    (h3 : s3 = keyboard_keycode vc2 true Key.insert s2) :
    s1.console_show = false ∧
    s2.console_show = false ∧ s2.enc = s.enc ∧
    s3.console_show = true ∧ s3.lastVC = -1 ∧
    s3.enc = braille_write s.enc s2.line.buf ∧
    s3.enc.writes = (if s.enc.bound = true ∧ s2.line.buf ≠ s.enc.last
                     then s.enc.writes ++ [braille_frame s2.line.buf]
                     else s.enc.writes) := by
  have hs1 : s1.console_show = false ∧ s1.enc = s.enc := by
    rw [h1]
    simp [keyboard_keycode, hshow, handle_console_key, vc_follow_cursor]
  have hs2 := browse_feed_enc fg vcw cs s1 hs1.1
  rw [← h2] at hs2
  have hs2enc : s2.enc = s.enc := hs2.2.1.trans hs1.2
  have hs3 : s3.console_show = true ∧ s3.lastVC = -1 ∧
      s3.enc = braille_write s2.enc s2.line.buf := by
    rw [h3]
    simp [keyboard_keycode, hs2.1, handle_vc_key]
  refine ⟨hs1.1, hs2.1, hs2enc, hs3.1, hs3.2.1, hs3.2.2.trans (by rw [hs2enc]), ?_⟩
  rw [hs3.2.2, hs2enc]
  by_cases hb : s.enc.bound
  · by_cases heq : s2.line.buf = s.enc.last
    · simp [braille_write, hb, heq]
    · simp [braille_write, hb, heq]
  · simp only [Bool.not_eq_true] at hb
    simp [braille_write, hb]

/-- C2 counterexample: from the state right after registration (Following
mode, blank line buffer, `last_write_buf` blank, a device bound, no
writes yet), pressing Insert twice with no characters in between returns
to Following but hands nothing to the transport — the re-sent blank line
is deduplicated against `last_write_buf`, so no "full re-encode-and-send
over the transport" occurs. -/
theorem C2_counterexample :
    (keyboard_keycode ⟨1, 0, 0, 80, 25⟩ true Key.insert
        (keyboard_keycode ⟨1, 0, 0, 80, 25⟩ true Key.insert
          ⟨⟨List.replicate 40 0, 0, true⟩, true, -1, 0, 0, 0, 0,
            ⟨true, List.replicate 40 0, []⟩, []⟩)).console_show = true ∧
    (keyboard_keycode ⟨1, 0, 0, 80, 25⟩ true Key.insert
        (keyboard_keycode ⟨1, 0, 0, 80, 25⟩ true Key.insert
          ⟨⟨List.replicate 40 0, 0, true⟩, true, -1, 0, 0, 0, 0,
            ⟨true, List.replicate 40 0, []⟩, []⟩)).enc.writes = [] := by
  constructor <;> decide

/-- Demo fixtures for exercising the mode round-trip: the state right
after registration and a foreground terminal of 80×25. -/
def S2demo : St :=
  ⟨⟨List.replicate 40 0, 0, true⟩, true, -1, 0, 0, 0, 0,
    ⟨true, List.replicate 40 0, []⟩, []⟩

def VCdemo : VC := ⟨1, 0, 0, 80, 25⟩

/-- C2 witness: one character (`'H'`) arrives while Browsing. -/
theorem C2_mode_round_trip_witness :
    (keyboard_keycode VCdemo true Key.insert S2demo).console_show = false ∧
    (([72] : List Nat).foldl (fun u c => vt_write 1 VCdemo c u)
        (keyboard_keycode VCdemo true Key.insert S2demo)).console_show = false ∧
    (([72] : List Nat).foldl (fun u c => vt_write 1 VCdemo c u)
        (keyboard_keycode VCdemo true Key.insert S2demo)).enc = S2demo.enc ∧
    (keyboard_keycode VCdemo true Key.insert
        (([72] : List Nat).foldl (fun u c => vt_write 1 VCdemo c u)
          (keyboard_keycode VCdemo true Key.insert S2demo))).console_show = true ∧
    (keyboard_keycode VCdemo true Key.insert
        (([72] : List Nat).foldl (fun u c => vt_write 1 VCdemo c u)
          (keyboard_keycode VCdemo true Key.insert S2demo))).lastVC = -1 ∧
    (keyboard_keycode VCdemo true Key.insert
        (([72] : List Nat).foldl (fun u c => vt_write 1 VCdemo c u)
          (keyboard_keycode VCdemo true Key.insert S2demo))).enc =
      braille_write S2demo.enc
        (([72] : List Nat).foldl (fun u c => vt_write 1 VCdemo c u)
          (keyboard_keycode VCdemo true Key.insert S2demo)).line.buf ∧
    (keyboard_keycode VCdemo true Key.insert
        (([72] : List Nat).foldl (fun u c => vt_write 1 VCdemo c u)
          (keyboard_keycode VCdemo true Key.insert S2demo))).enc.writes =
      (if S2demo.enc.bound = true ∧
          (([72] : List Nat).foldl (fun u c => vt_write 1 VCdemo c u)
            (keyboard_keycode VCdemo true Key.insert S2demo)).line.buf ≠ S2demo.enc.last
       then S2demo.enc.writes ++
          [braille_frame
            (([72] : List Nat).foldl (fun u c => vt_write 1 VCdemo c u)
              (keyboard_keycode VCdemo true Key.insert S2demo)).line.buf]
       else S2demo.enc.writes) :=
  C2_mode_round_trip VCdemo VCdemo VCdemo 1 [72] S2demo
    (keyboard_keycode VCdemo true Key.insert S2demo)
    (([72] : List Nat).foldl (fun u c => vt_write 1 VCdemo c u)
      (keyboard_keycode VCdemo true Key.insert S2demo))
    (keyboard_keycode VCdemo true Key.insert
      (([72] : List Nat).foldl (fun u c => vt_write 1 VCdemo c u)
        (keyboard_keycode VCdemo true Key.insert S2demo)))
    rfl rfl rfl rfl

/-- A printable character (not DEL) written with the cursor strictly
inside the line appends to the filled prefix and advances the cursor. -/
theorem on_char_fill (pre : List Nat) (c : Nat) (hc : 32 ≤ c) (hc7 : c ≠ 127)
    (hlen : pre.length < 40) :
    on_char ⟨pre ++ List.replicate (40 - pre.length) 0, (pre.length : Int), false⟩ c
      = ⟨(pre ++ [c]) ++ List.replicate (40 - (pre.length + 1)) 0,
          (pre.length : Int) + 1, false⟩ := by
  have h8 : ¬ (c = 8 ∨ c = 127) := by omega
  have h10 : ¬ (c = 10 ∨ c = 11 ∨ c = 12 ∨ c = 13) := by omega
  have h9 : ¬ c = 9 := by omega
  have hlt : ¬ c < 32 := by omega
  have hcur : ¬ ((pre.length : Int) = WIDTH) := by
    simp only [WIDTH]
    omega
  simp only [on_char, h8, h10, h9, hlt, if_false, if_neg, ite_false, Bool.false_eq_true]
  have hidx : ((pre.length : Int) + 1 - 1).toNat = pre.length := by omega
  obtain ⟨m, hm⟩ : ∃ m, 40 - pre.length = m + 1 := ⟨39 - pre.length, by omega⟩
  have hm' : 40 - (pre.length + 1) = m := by omega
  simp only [hcur, ite_false, hidx, hm, hm', List.replicate_succ]
  have hset : (pre ++ 0 :: List.replicate m 0).set pre.length c
      = pre ++ c :: List.replicate m 0 := by
    have := set_append_len pre (0 :: List.replicate m 0) c
    simp only [List.set] at this
    exact this
  simp [hset, List.append_assoc]

/-- Filling an unfull line: feeding printable characters that fit appends
them after the existing prefix. -/
theorem feed_fill (cs : List Nat) : ∀ pre : List Nat,
    (∀ c ∈ cs, 32 ≤ c ∧ c ≠ 127) → pre.length + cs.length ≤ 40 →
    feed ⟨pre ++ List.replicate (40 - pre.length) 0, (pre.length : Int), false⟩ cs
      = ⟨(pre ++ cs) ++ List.replicate (40 - (pre.length + cs.length)) 0,
          ((pre.length + cs.length : Nat) : Int), false⟩ := by
  induction cs with
  | nil => intro pre _ _; simp [feed]
  | cons c cs ih =>
      intro pre hall hlen
      have hc := hall c (List.mem_cons_self c cs)
      have hlen' : pre.length < 40 := by
        simp only [List.length_cons] at hlen
        omega
      have hstep := on_char_fill pre c hc.1 hc.2 hlen'
      have hfold : feed ⟨pre ++ List.replicate (40 - pre.length) 0, (pre.length : Int), false⟩
          (c :: cs) = feed ⟨(pre ++ [c]) ++ List.replicate (40 - (pre.length + 1)) 0,
            (pre.length : Int) + 1, false⟩ cs := by
        simp only [feed, List.foldl_cons, hstep]
      rw [hfold]
      have hpre1 : (pre ++ [c]).length = pre.length + 1 := by simp
      have := ih (pre ++ [c]) (fun d hd => hall d (List.mem_cons_of_mem c hd))
        (by simp only [List.length_cons] at hlen; simp; omega)
      rw [hpre1] at this
      have hcast : ((pre.length + 1 : Nat) : Int) = (pre.length : Int) + 1 := by push_cast; ring
      rw [hcast] at this
      rw [this]
      have h1 : (pre ++ [c]) ++ cs = pre ++ c :: cs := by simp
      have h2 : pre.length + 1 + cs.length = pre.length + (c :: cs).length := by
        simp only [List.length_cons]
        omega
      rw [h1, h2]

/-- A printable character (not DEL) written with the cursor at `WIDTH`
slides the window: the leftmost cell drops, the character lands in the
last cell, the cursor stays at `WIDTH`. -/
theorem on_char_slide (buf : List Nat) (c : Nat) (hlen : buf.length = 40)
    (hc : 32 ≤ c) (hc7 : c ≠ 127) :
    on_char ⟨buf, (40 : Int), false⟩ c = ⟨buf.tail ++ [c], 40, false⟩ := by
  have h8 : ¬ (c = 8 ∨ c = 127) := by omega
  have h10 : ¬ (c = 10 ∨ c = 11 ∨ c = 12 ∨ c = 13) := by omega
  have h9 : ¬ c = 9 := by omega
  have hlt : ¬ c < 32 := by omega
  have hcur : ((40 : Int) = WIDTH) := by simp [WIDTH]
  simp only [on_char, h8, h10, h9, hlt, if_false, if_neg, ite_false, Bool.false_eq_true,
    hcur, ite_true, if_true]
  have hidx : ((40 : Int) - 1).toNat = 39 := by omega
  have htl : buf.tail.length = 39 := by
    cases buf with
    | nil => simp at hlen
    | cons a as => simp at hlen ⊢; omega
  have hset : (buf.tail ++ [buf.getD 39 0]).set 39 c = buf.tail ++ [c] := by
    have := set_append_len buf.tail [buf.getD 39 0] c
    rw [htl] at this
    simpa [List.set] using this
  have hW : (WIDTH - 1).toNat = 39 := by decide
  rw [hW, hset]

/-- C5: feeding 41 printable characters (in `[0x20, 0xFF]`, excluding
DEL = 127, which the handler treats as a backspace) from the cleared
state (all-blank line, cursor 0, newline flag clear) leaves the line
equal to characters 2..41 of the input with the cursor at `WIDTH`; and
in general, with the newline flag clear, a printable character at
`cursor == WIDTH` shifts the line left one cell, writes into the last
cell, and keeps the cursor at `WIDTH`. -/
theorem C5_sliding_window :
    (∀ cs : List Nat, cs.length = 41 → (∀ c ∈ cs, 32 ≤ c ∧ c ≤ 255 ∧ c ≠ 127) →
      feed initLineBuf cs = ⟨cs.tail, 40, false⟩) ∧
    (∀ (s : LineBuf) (c : Nat), s.buf.length = 40 → s.newline = false → s.cursor = WIDTH →
      32 ≤ c → c ≤ 255 → c ≠ 127 → on_char s c = ⟨s.buf.tail ++ [c], WIDTH, false⟩) := by
  constructor
  · intro cs hlen hall
    obtain ⟨x, hx⟩ : ∃ a, cs.drop 40 = [a] :=
      List.length_eq_one.mp (by rw [List.length_drop, hlen])
    have htake : (cs.take 40).length = 40 := by
      rw [List.length_take, hlen]
      decide
    have hsplit : cs.take 40 ++ cs.drop 40 = cs := List.take_append_drop 40 cs
    have hfill2 : feed initLineBuf (cs.take 40) = ⟨cs.take 40, (40 : Int), false⟩ := by
      have h := feed_fill (cs.take 40) []
        (fun c hc => ⟨(hall c (List.take_subset 40 cs hc)).1,
          (hall c (List.take_subset 40 cs hc)).2.2⟩)
        (by simp [htake])
      rw [htake] at h
      simpa [initLineBuf] using h
    have hx_mem : x ∈ cs := List.drop_subset 40 cs (by rw [hx]; exact List.mem_singleton_self x)
    have hxc := hall x hx_mem
    have hslide := on_char_slide (cs.take 40) x htake hxc.1 hxc.2.2
    have hfeed : feed initLineBuf cs = on_char (feed initLineBuf (cs.take 40)) x := by
      conv_lhs => rw [← hsplit]
      simp [feed, List.foldl_append, hx]
    rw [hfeed, hfill2, hslide]
    have htail : (cs.take 40).tail ++ [x] = cs.tail := by
      conv_rhs => rw [← hsplit]
      rw [hx, tail_append_of_ne_nil]
      intro hnil
      rw [hnil] at htake
      simp at htake
    rw [htail]
  · intro s c hlen hnl hcur hc hc255 hc7
    obtain ⟨buf, cur, nl⟩ := s
    simp only at hlen hnl hcur
    subst hnl hcur
    have hW : WIDTH = (40 : Int) := by decide
    rw [hW]
    exact on_char_slide buf c hlen hc hc7

/-- C5 witness: 41 copies of `'A'`. -/
theorem C5_sliding_window_witness :
    feed initLineBuf (List.replicate 41 65) = ⟨(List.replicate 41 65).tail, 40, false⟩ ∧
    on_char ⟨List.replicate 40 66, WIDTH, false⟩ 67
      = ⟨(List.replicate 40 66).tail ++ [67], WIDTH, false⟩ :=
  ⟨C5_sliding_window.1 (List.replicate 41 65) (by decide)
      (by intro c hc; simp at hc; omega),
   C5_sliding_window.2 ⟨List.replicate 40 66, WIDTH, false⟩ 67 (by decide) rfl rfl
      (by decide) (by decide) (by decide)⟩
